import Mathlib

/-!
Verification of the InelNET cover integration's command client and
position-estimation state machine (`custom_components/inelnet`).

The embedding follows the source:
  * `InelNetCover._calculate_current_position`, `_start_movement`,
    `_complete_movement`, `_stop_movement`, `async_open_cover`,
    `async_close_cover`, `async_stop_cover`, `async_set_cover_position`
    and the deferred `send_stop` task from `cover.py`;
  * `InelNetClient.send_command` from `__init__.py`.

Machine integers are modelled as `ℤ` (Python ints), wall-clock times and
durations as `ℚ`, and Python's `int(...)` truncation toward zero as `pyInt`.
HTTP outcomes are passed in explicitly: a `Bool` for a command result, a
list of per-attempt outcomes for the retry loop.
-/

namespace InelNet

/-- Movement direction, the `'up'` / `'down'` strings of the source. -/
inductive Direction
  | up
  | down
deriving DecidableEq

/-- Python `int(...)` on a rational: truncation toward zero. -/
def pyInt (q : ℚ) : ℤ := if 0 ≤ q then ⌊q⌋ else -⌊-q⌋

/-- Per-blind mutable state of `InelNetCover`: the stored `_position`,
the movement fields and the configured `_travel_time`. -/
structure BlindState where
  position : ℤ
  is_moving : Bool
  move_start_time : Option ℚ
  move_start_position : ℤ
  move_direction : Option Direction
  move_target : Option ℤ
  travel_time : ℚ
deriving DecidableEq

/-- State set up by `InelNetCover.__init__`: position 50, not moving,
all movement fields cleared. -/
def initState (travel_time : ℚ) : BlindState :=
  { position := 50
    is_moving := false
    move_start_time := none
    move_start_position := 50
    move_direction := none
    move_target := none
    travel_time := travel_time }

/-- Embedding of `InelNetCover._calculate_current_position`, evaluated at wall-clock
time `now` (so `elapsed = now - move_start_time`). -/
def calculate_current_position (s : BlindState) (now : ℚ) : ℤ :=
  match s.is_moving, s.move_start_time with
  | true, some t0 =>
    let elapsed : ℚ := now - t0
    match s.move_target with
    | some target =>
      let distance : ℚ := |((target : ℚ) - (s.move_start_position : ℚ))|
      let duration : ℚ := distance / 100 * s.travel_time
      let progress : ℚ := if 0 < duration then min (elapsed / duration) 1 else 1
      if s.move_direction = some Direction.up then
        pyInt ((s.move_start_position : ℚ) +
          ((target : ℚ) - (s.move_start_position : ℚ)) * progress)
      else
        pyInt ((s.move_start_position : ℚ) -
          ((s.move_start_position : ℚ) - (target : ℚ)) * progress)
    | none =>
      let progress : ℚ := min (elapsed / s.travel_time) 1
      if s.move_direction = some Direction.up then
        pyInt ((s.move_start_position : ℚ) +
          (100 - (s.move_start_position : ℚ)) * progress)
      else
        pyInt ((s.move_start_position : ℚ) * (1 - progress))
  | _, _ => s.position

/-- Property `current_cover_position`: the projection while moving, the
stored position otherwise. -/
def current_cover_position (s : BlindState) (now : ℚ) : ℤ :=
  if s.is_moving then calculate_current_position s now else s.position

/-- Property `is_closed`: compares the stored `_position` with 2. -/
def is_closed (s : BlindState) : Bool := s.position ≤ 2

/-- Property `is_opening`. -/
def is_opening (s : BlindState) : Bool :=
  s.is_moving && decide (s.move_direction = some Direction.up)

/-- Property `is_closing`. -/
def is_closing (s : BlindState) : Bool :=
  s.is_moving && decide (s.move_direction = some Direction.down)

/-- Embedding of `InelNetCover._start_movement` at time `now`: the mutated state and,
when the computed duration is positive, the delay at which the
`_complete_movement` callback is scheduled via `call_later`. -/
def start_movement (s : BlindState) (now : ℚ) (direction : Direction)
    (target : Option ℤ) : BlindState × Option ℚ :=
  let s1 : BlindState :=
    { s with
      is_moving := true
      move_start_time := some now
      move_start_position := s.position
      move_direction := some direction
      move_target := target }
  let distance : ℚ :=
    match target with
    | some t => |((t : ℚ) - (s.position : ℚ))|
    | none =>
      match direction with
      | Direction.up => 100 - (s.position : ℚ)
      | Direction.down => (s.position : ℚ)
  let duration : ℚ := distance / 100 * s.travel_time
  (s1, if 0 < duration then some duration else none)

/-- Embedding of `InelNetCover._complete_movement`: a no-op when not moving, otherwise
stores the target (or 100 / 0) and clears the movement fields. -/
def complete_movement (s : BlindState) : BlindState :=
  if s.is_moving = false then s
  else
    let pos : ℤ :=
      match s.move_target with
      | some t => t
      | none =>
        match s.move_direction with
        | some Direction.up => 100
        | _ => 0
    { s with
      position := pos
      is_moving := false
      move_start_time := none
      move_direction := none
      move_target := none }

/-- Embedding of `InelNetCover._stop_movement` at time `now`: commits the projected
position and clears the movement fields, a no-op when idle. -/
def stop_movement (s : BlindState) (now : ℚ) : BlindState :=
  if s.is_moving then
    { s with
      position := calculate_current_position s now
      is_moving := false
      move_start_time := none
      move_direction := none
      move_target := none }
  else s

/-- Embedding of `InelNetCover.async_open_cover` at time `now`; `ok` is the result of
`client.open_cover`.  The in-flight movement is stopped before the
command is sent; the movement starts only on a true result. -/
def async_open_cover (s : BlindState) (now : ℚ) (ok : Bool) :
    BlindState × Option ℚ :=
  let s1 := stop_movement s now
  if ok then start_movement s1 now Direction.up none else (s1, none)

/-- Embedding of `InelNetCover.async_close_cover` at time `now`; `ok` is the result of
`client.close_cover`. -/
def async_close_cover (s : BlindState) (now : ℚ) (ok : Bool) :
    BlindState × Option ℚ :=
  let s1 := stop_movement s now
  if ok then start_movement s1 now Direction.down none else (s1, none)

/-- Embedding of `InelNetCover.async_stop_cover` at time `now`; `ok` is the result of
`client.stop_cover`. -/
def async_stop_cover (s : BlindState) (now : ℚ) (ok : Bool) : BlindState :=
  if ok then stop_movement s now else s

/-- Result of `async_set_cover_position`: the new state, whether any HTTP
command was issued, the scheduled `_complete_movement` delay, and the
scheduled `send_stop` task (its sleep duration and captured position). -/
structure SetPosResult where
  state : BlindState
  sent_command : Bool
  completion_delay : Option ℚ
  stop_task : Option (ℚ × ℤ)
deriving DecidableEq

/-- Embedding of `InelNetCover.async_set_cover_position` at time `now` for target
`pos`.  The source discards the results of `open_cover` / `close_cover`,
so no command outcome parameter appears. -/
def async_set_cover_position (s : BlindState) (now : ℚ) (pos : ℤ) :
    SetPosResult :=
  let s1 := stop_movement s now
  let current := s1.position
  if |pos - current| < 3 then
    { state := s1, sent_command := false, completion_delay := none,
      stop_task := none }
  else
    let direction := if current < pos then Direction.up else Direction.down
    let duration : ℚ := |((pos : ℚ) - (current : ℚ))| / 100 * s1.travel_time
    let r := start_movement s1 now direction (some pos)
    { state := r.1, sent_command := true, completion_delay := r.2,
      stop_task := some (duration, pos) }

/-- Body of the deferred `send_stop` task of `async_set_cover_position`,
firing at time `now` with its captured target `pos`: guarded by
`_is_moving and _move_target == position`, then stop and store `pos`. -/
def send_stop_fire (s : BlindState) (now : ℚ) (pos : ℤ) : BlindState :=
  if s.is_moving ∧ s.move_target = some pos then
    let s1 := stop_movement s now
    { s1 with position := pos }
  else s

/-- Outcome of one HTTP attempt inside `InelNetClient.send_command`:
a 200 response, a non-200 response, or a raised exception / timeout. -/
inductive AttemptResult
  | success
  | badStatus
  | netError
deriving DecidableEq

/-- Embedding of `InelNetClient.send_command` run against the per-attempt outcomes the
environment would deliver (the list has one entry per attempt, so its
length is `retries`).  Returns the boolean result together with the
number of `retry_delay` sleeps executed.  A 200 response returns true,
after a sleep when the attempt is not the last; a non-200 response falls
through to the next attempt with no sleep; an exception is caught and
followed by a sleep when the attempt is not the last. -/
def send_command_aux : List AttemptResult → Bool × ℕ
  | [] => (false, 0)
  | a :: rest =>
    match a with
    | AttemptResult.success => (true, if rest.isEmpty then 0 else 1)
    | AttemptResult.badStatus => send_command_aux rest
    | AttemptResult.netError =>
      let r := send_command_aux rest
      (r.1, (if rest.isEmpty then 0 else 1) + r.2)

/-- Boolean result of `send_command`. -/
def send_command_result (outcomes : List AttemptResult) : Bool :=
  (send_command_aux outcomes).1

/-- Number of `retry_delay` sleeps `send_command` executes. -/
def send_command_delays (outcomes : List AttemptResult) : ℕ :=
  (send_command_aux outcomes).2

/-- Firing semantics of the `call_later` completion timer: given the pair
returned by an operation (state, scheduled delay) and the wall-clock time
`start` at which it was scheduled, the state observed at time `t` — the
timer has fired exactly when its delay has elapsed. -/
def fire_completion (r : BlindState × Option ℚ) (start t : ℚ) : BlindState :=
  match r.2 with
  | some d => if start + d ≤ t then complete_movement r.1 else r.1
  | none => r.1

/-- An idle state at position `p0` (movement fields cleared). -/
def idleState (p0 : ℤ) (tt : ℚ) : BlindState :=
  { position := p0
    is_moving := false
    move_start_time := none
    move_start_position := p0
    move_direction := none
    move_target := none
    travel_time := tt }

/-- The state `_start_movement direction (no target)` produces at time
`t0` from an idle state at position `p0`. -/
def movingState (p0 : ℤ) (tt : ℚ) (t0 : ℚ) (dir : Direction) : BlindState :=
  { position := p0
    is_moving := true
    move_start_time := some t0
    move_start_position := p0
    move_direction := some dir
    move_target := none
    travel_time := tt }

/-- The C2 scenario: `open()` succeeding at time 0 on a fresh cover with
`travel_time = 20` (position 50). -/
def c2_open : BlindState × Option ℚ := async_open_cover (initState 20) 0 true

/-- C3 interleaving, first step: `open()` at time 0 on a fresh cover with
`travel_time = 20`, scheduling a completion timer. -/
def c3_move_a : BlindState × Option ℚ := async_open_cover (initState 20) 0 true

/-- C3 interleaving, second step: `async_set_cover_position(0)` at time 5
supersedes the open movement with a new down movement targeting 0. -/
def c3_superseded : SetPosResult := async_set_cover_position c3_move_a.1 5 0

/-- A cover moving up from 50 since time 0 (`travel_time = 20`). -/
def movingUp50 : BlindState := movingState 50 20 0 Direction.up

/-- A cover closing from 50 since time 0 (`travel_time = 20`). -/
def movingDown50 : BlindState := movingState 50 20 0 Direction.down

/-- Validity of a per-blind state: stored and start positions in
`[0, 100]`, any target in `[0, 100]`, strictly positive travel time. -/
def ValidState (s : BlindState) : Prop :=
  0 ≤ s.position ∧ s.position ≤ 100 ∧
  0 ≤ s.move_start_position ∧ s.move_start_position ≤ 100 ∧
  (∀ t, s.move_target = some t → 0 ≤ t ∧ t ≤ 100) ∧
  0 < s.travel_time

/-- The observation time is not earlier than the recorded movement start
(the wall clock does not run backwards). -/
def TimeOK (s : BlindState) (now : ℚ) : Prop :=
  ∀ t0, s.move_start_time = some t0 → t0 ≤ now

theorem pyInt_of_nonneg {q : ℚ} (h : 0 ≤ q) : pyInt q = ⌊q⌋ := by
  unfold pyInt
  rw [if_pos h]

theorem pyInt_nonneg {q : ℚ} (h : 0 ≤ q) : 0 ≤ pyInt q := by
  rw [pyInt_of_nonneg h]
  exact Int.floor_nonneg.mpr h

theorem pyInt_le {q : ℚ} {n : ℤ} (h0 : 0 ≤ q) (h : q ≤ (n : ℚ)) :
    pyInt q ≤ n := by
  rw [pyInt_of_nonneg h0]
  exact_mod_cast le_trans (Int.floor_le q) h

theorem pyInt_lt {q : ℚ} {n : ℤ} (h0 : 0 ≤ q) (h : q < (n : ℚ)) :
    pyInt q < n := by
  rw [pyInt_of_nonneg h0]
  exact_mod_cast lt_of_le_of_lt (Int.floor_le q) h

theorem pyInt_intCast (n : ℤ) : pyInt (n : ℚ) = n := by
  unfold pyInt
  by_cases h : (0 : ℚ) ≤ (n : ℚ)
  · rw [if_pos h, Int.floor_intCast]
  · rw [if_neg h, show (-(n : ℚ)) = ((-n : ℤ) : ℚ) by push_cast; ring,
      Int.floor_intCast]
    ring

/-- Linear interpolation between two in-range endpoints, truncated, stays
in `[0, 100]`. -/
theorem pyInt_interp_bounds {a b p : ℚ} (ha : 0 ≤ a) (ha' : a ≤ 100)
    (hb : 0 ≤ b) (hb' : b ≤ 100) (hp : 0 ≤ p) (hp' : p ≤ 1) :
    0 ≤ pyInt (a + (b - a) * p) ∧ pyInt (a + (b - a) * p) ≤ 100 := by
  have h0 : 0 ≤ a + (b - a) * p := by nlinarith
  have h1 : a + (b - a) * p ≤ ((100 : ℤ) : ℚ) := by push_cast; nlinarith
  exact ⟨pyInt_nonneg h0, pyInt_le h0 h1⟩


theorem calculate_mem_Icc (s : BlindState) (now : ℚ)
    (hp0 : 0 ≤ s.position) (hp1 : s.position ≤ 100)
    (hs0 : 0 ≤ s.move_start_position) (hs1 : s.move_start_position ≤ 100)
    (htgt : ∀ t, s.move_target = some t → 0 ≤ t ∧ t ≤ 100)
    (htt : 0 < s.travel_time) (hnow : TimeOK s now) :
    0 ≤ calculate_current_position s now ∧
      calculate_current_position s now ≤ 100 := by
  obtain ⟨p, mv, st, sp, dir, tg, tt⟩ := s
  dsimp only at hp0 hp1 hs0 hs1 htgt htt hnow
  cases mv with
  | false => exact ⟨hp0, hp1⟩
  | true =>
    cases st with
    | none => exact ⟨hp0, hp1⟩
    | some t0 =>
      have helapsed : (0 : ℚ) ≤ now - t0 := by
        have := hnow t0 rfl
        linarith
      have hsp0 : (0 : ℚ) ≤ (sp : ℚ) := by exact_mod_cast hs0
      have hsp1 : (sp : ℚ) ≤ 100 := by exact_mod_cast hs1
      cases tg with
      | some target =>
        obtain ⟨ht0, ht1⟩ := htgt target rfl
        have htg0 : (0 : ℚ) ≤ (target : ℚ) := by exact_mod_cast ht0
        have htg1 : (target : ℚ) ≤ 100 := by exact_mod_cast ht1
        simp only [calculate_current_position]
        set d : ℚ := |((target : ℚ) - (sp : ℚ))| / 100 * tt with hd_def
        set P : ℚ := if 0 < d then min ((now - t0) / d) 1 else 1 with hP_def
        have hP : 0 ≤ P ∧ P ≤ 1 := by
          rw [hP_def]
          split_ifs with hd
          · exact ⟨le_min (div_nonneg helapsed hd.le) zero_le_one, min_le_right _ _⟩
          · exact ⟨zero_le_one, le_refl 1⟩
        split_ifs with hdir
        · exact pyInt_interp_bounds hsp0 hsp1 htg0 htg1 hP.1 hP.2
        · have harg : (sp : ℚ) - ((sp : ℚ) - (target : ℚ)) * P
              = (sp : ℚ) + ((target : ℚ) - (sp : ℚ)) * P := by ring
          rw [harg]
          exact pyInt_interp_bounds hsp0 hsp1 htg0 htg1 hP.1 hP.2
      | none =>
        simp only [calculate_current_position]
        set P : ℚ := min ((now - t0) / tt) 1 with hP_def
        have hP : 0 ≤ P ∧ P ≤ 1 := by
          rw [hP_def]
          exact ⟨le_min (div_nonneg helapsed htt.le) zero_le_one, min_le_right _ _⟩
        split_ifs with hdir
        · exact pyInt_interp_bounds hsp0 hsp1 (by norm_num) (by norm_num) hP.1 hP.2
        · have harg : (sp : ℚ) * (1 - P) = (sp : ℚ) + (0 - (sp : ℚ)) * P := by ring
          rw [harg]
          exact pyInt_interp_bounds hsp0 hsp1 (le_refl 0) (by norm_num) hP.1 hP.2


theorem stop_movement_valid (s : BlindState) (now : ℚ)
    (hv : ValidState s) (ht : TimeOK s now) :
    ValidState (stop_movement s now) := by
  obtain ⟨h1, h2, h3, h4, h5, h6⟩ := hv
  have hc := calculate_mem_Icc s now h1 h2 h3 h4 h5 h6 ht
  unfold stop_movement
  split_ifs with hm
  · exact ⟨hc.1, hc.2, h3, h4, (by intro t h; cases h), h6⟩
  · exact ⟨h1, h2, h3, h4, h5, h6⟩

theorem complete_movement_valid (s : BlindState) (hv : ValidState s) :
    ValidState (complete_movement s) := by
  obtain ⟨h1, h2, h3, h4, h5, h6⟩ := hv
  unfold complete_movement
  split_ifs with hm
  · exact ⟨h1, h2, h3, h4, h5, h6⟩
  · refine ⟨?_, ?_, h3, h4, (by intro t h; cases h), h6⟩ <;>
    · cases htg : s.move_target with
      | some t =>
        simp only [htg]
        have := h5 t htg
        omega
      | none =>
        cases hdir : s.move_direction with
        | some d =>
          cases d <;> (simp only [htg, hdir]; omega)
        | none => simp only [htg, hdir]; omega

theorem start_movement_valid (s : BlindState) (now : ℚ) (d : Direction)
    (t : Option ℤ) (hv : ValidState s)
    (htg : ∀ x, t = some x → 0 ≤ x ∧ x ≤ 100) :
    ValidState (start_movement s now d t).1 := by
  obtain ⟨h1, h2, h3, h4, h5, h6⟩ := hv
  exact ⟨h1, h2, h1, h2, htg, h6⟩

theorem send_stop_fire_valid (s : BlindState) (now : ℚ) (pos : ℤ)
    (hv : ValidState s) (ht : TimeOK s now)
    (hp0 : 0 ≤ pos) (hp1 : pos ≤ 100) :
    ValidState (send_stop_fire s now pos) := by
  have hs := stop_movement_valid s now hv ht
  unfold send_stop_fire
  split_ifs with hg
  · exact ⟨hp0, hp1, hs.2.2.1, hs.2.2.2.1, hs.2.2.2.2.1, hs.2.2.2.2.2⟩
  · exact hv

theorem set_cover_position_valid (s : BlindState) (now : ℚ) (pos : ℤ)
    (hv : ValidState s) (ht : TimeOK s now)
    (hp0 : 0 ≤ pos) (hp1 : pos ≤ 100) :
    ValidState (async_set_cover_position s now pos).state := by
  have hs := stop_movement_valid s now hv ht
  simp only [async_set_cover_position]
  split_ifs with hnear hdir
  · exact hs
  · exact start_movement_valid _ now _ (some pos) hs
      (by intro x hx; cases hx; exact ⟨hp0, hp1⟩)
  · exact start_movement_valid _ now _ (some pos) hs
      (by intro x hx; cases hx; exact ⟨hp0, hp1⟩)

theorem open_cover_valid (s : BlindState) (now : ℚ) (ok : Bool)
    (hv : ValidState s) (ht : TimeOK s now) :
    ValidState (async_open_cover s now ok).1 := by
  have hs := stop_movement_valid s now hv ht
  cases ok with
  | false => exact hs
  | true =>
    exact start_movement_valid _ now _ none hs (by intro x hx; cases hx)

theorem close_cover_valid (s : BlindState) (now : ℚ) (ok : Bool)
    (hv : ValidState s) (ht : TimeOK s now) :
    ValidState (async_close_cover s now ok).1 := by
  have hs := stop_movement_valid s now hv ht
  cases ok with
  | false => exact hs
  | true =>
    exact start_movement_valid _ now _ none hs (by intro x hx; cases hx)

theorem initState_valid (tt : ℚ) (h : 0 < tt) : ValidState (initState tt) := by
  refine ⟨by norm_num [initState], by norm_num [initState], by norm_num [initState],
    by norm_num [initState], ?_, h⟩
  intro t ht
  cases ht

/-- C9: for every valid per-blind state and every observation time not
before the movement start, the projection and the effective position are
integers in [0,100], and every operation of the estimator preserves
validity of the stored state (positions stay in [0,100]); the fresh state
is valid, so all reachable states are. -/
theorem positions_stay_in_range (s : BlindState) (now : ℚ)
    (hv : ValidState s) (ht : TimeOK s now) :
    (0 ≤ calculate_current_position s now ∧
      calculate_current_position s now ≤ 100)
    ∧ (0 ≤ current_cover_position s now ∧
      current_cover_position s now ≤ 100)
    ∧ ValidState (stop_movement s now)
    ∧ ValidState (complete_movement s)
    ∧ (∀ ok, ValidState (async_open_cover s now ok).1)
    ∧ (∀ ok, ValidState (async_close_cover s now ok).1)
    ∧ (∀ ok, ValidState (async_stop_cover s now ok))
    ∧ (∀ pos, 0 ≤ pos → pos ≤ 100 →
        ValidState (async_set_cover_position s now pos).state)
    ∧ (∀ pos, 0 ≤ pos → pos ≤ 100 → ValidState (send_stop_fire s now pos))
    ∧ (∀ d t, (∀ x, t = some x → 0 ≤ x ∧ x ≤ 100) →
        ValidState (start_movement s now d t).1)
    ∧ (∀ tt, 0 < tt → ValidState (initState tt)) := by
  obtain ⟨h1, h2, h3, h4, h5, h6⟩ := hv
  have hv' : ValidState s := ⟨h1, h2, h3, h4, h5, h6⟩
  have hc := calculate_mem_Icc s now h1 h2 h3 h4 h5 h6 ht
  refine ⟨hc, ?_, stop_movement_valid s now hv' ht,
    complete_movement_valid s hv',
    fun ok => open_cover_valid s now ok hv' ht,
    fun ok => close_cover_valid s now ok hv' ht,
    fun ok => ?_,
    fun pos hp0 hp1 => set_cover_position_valid s now pos hv' ht hp0 hp1,
    fun pos hp0 hp1 => send_stop_fire_valid s now pos hv' ht hp0 hp1,
    fun d t htg => start_movement_valid s now d t hv' htg,
    fun tt htt => initState_valid tt htt⟩
  · unfold current_cover_position
    split_ifs
    · exact hc
    · exact ⟨h1, h2⟩
  · cases ok with
    | false => exact hv'
    | true => exact stop_movement_valid s now hv' ht

/-- Witness for C9 at the fresh state with travel time 20, observed at
time 0. -/
theorem positions_stay_in_range_witness :
    0 ≤ calculate_current_position (initState 20) 0 ∧
      calculate_current_position (initState 20) 0 ≤ 100 :=
  (positions_stay_in_range (initState 20) 0
    (initState_valid 20 (by norm_num))
    (by intro t0 h; simp [initState] at h)).1

/-- C10: a freshly constructed cover reports position 50, is not closed,
and is neither opening nor closing, for every travel time and any
observation instant. -/
theorem fresh_cover_reports_midpoint (tt now : ℚ) :
    current_cover_position (initState tt) now = 50
    ∧ is_closed (initState tt) = false
    ∧ is_opening (initState tt) = false
    ∧ is_closing (initState tt) = false := by
  refine ⟨?_, ?_, ?_, ?_⟩ <;> rfl

/-- C5: the retry loop of `send_command` returns true exactly when some
attempt among the delivered outcomes is an HTTP 200; in every other case
(all attempts a non-200 status or a caught network error) it returns
false, and it is a total function (no exception escapes). -/
theorem send_command_success_iff (outcomes : List AttemptResult) :
    send_command_result outcomes = true ↔
      AttemptResult.success ∈ outcomes := by
  induction outcomes with
  | nil => simp [send_command_result, send_command_aux]
  | cons a rest ih =>
    cases a with
    | success => simp [send_command_result, send_command_aux]
    | badStatus => simpa [send_command_result, send_command_aux] using ih
    | netError => simpa [send_command_result, send_command_aux] using ih

/-- C6: evaluation of the retry loop's sleep count at the spec's inputs.
With two attempts both answering a non-200 status, zero `retry_delay`
sleeps elapse (the claim demands exactly one); with a 200 on the first of
two attempts, one sleep elapses before returning true (the claim demands
none); only a caught network error on a non-final attempt sleeps as the
claim describes. -/
theorem send_command_delay_behavior :
    send_command_aux [AttemptResult.badStatus, AttemptResult.badStatus]
      = (false, 0)
    ∧ send_command_aux [AttemptResult.success, AttemptResult.badStatus]
      = (true, 1)
    ∧ send_command_aux [AttemptResult.netError, AttemptResult.badStatus]
      = (false, 1)
    ∧ send_command_aux [AttemptResult.success] = (true, 0) := by
  refine ⟨?_, ?_, ?_, ?_⟩ <;> rfl

theorem c2_open_eq : c2_open = (movingState 50 20 0 Direction.up, some 10) := by
  norm_num [c2_open, async_open_cover, stop_movement, initState, start_movement,
    movingState]

theorem calc_up_50_at_10 :
    calculate_current_position (movingState 50 20 0 Direction.up) 10 = 75 := by
  simp only [calculate_current_position, movingState, pyInt]
  norm_num

theorem c2_complete_eq :
    complete_movement (movingState 50 20 0 Direction.up) =
      { position := 100, is_moving := false, move_start_time := none,
        move_start_position := 50, move_direction := none, move_target := none,
        travel_time := 20 } := by
  norm_num [complete_movement, movingState]

/-- C2 counterexample: after `open()` from position 50 with travel time
20s, the completion timer is scheduled at delay 10 (not 20), so at `t+10s`
the state machine has already transitioned to IDLE with stored position
100 — it is not still MOVING with projection 75 as the claim states. -/
theorem c2_still_moving_at_ten_refuted :
    c2_open.2 = some 10
    ∧ (fire_completion c2_open 0 10).is_moving = false
    ∧ (fire_completion c2_open 0 10).position = 100 := by
  rw [c2_open_eq]
  refine ⟨rfl, ?_, ?_⟩ <;>
    (simp only [fire_completion]; rw [if_pos (by norm_num), c2_complete_eq])

/-- C2 amended: with travel time 20s and the blind at 50, after `open()`
the state is MOVING for all 0 ≤ t < 10; the projection formula at elapsed
10 yields 75 (≈ 75 approaching t+10), but the completion scheduled by
`_start_movement` fires already at delay 10 = (50/100)·20, storing
position 100 and transitioning to IDLE; hence at `t+10s` and at `t+20s`
the state is IDLE with position 100. -/
theorem c2_open_scenario_amended (t : ℚ) (_h0 : 0 ≤ t) (h1 : t < 10) :
    (fire_completion c2_open 0 t).is_moving = true
    ∧ fire_completion c2_open 0 t = c2_open.1
    ∧ calculate_current_position c2_open.1 10 = 75
    ∧ c2_open.2 = some 10
    ∧ (fire_completion c2_open 0 20).is_moving = false
    ∧ (fire_completion c2_open 0 20).position = 100 := by
  rw [c2_open_eq]
  refine ⟨?_, ?_, calc_up_50_at_10, rfl, ?_, ?_⟩
  · simp only [fire_completion]
    rw [if_neg (by linarith)]
    rfl
  · simp only [fire_completion]
    rw [if_neg (by linarith)]
  · simp only [fire_completion]
    rw [if_pos (by norm_num), c2_complete_eq]
  · simp only [fire_completion]
    rw [if_pos (by norm_num), c2_complete_eq]

/-- Witness for C2's amended theorem at t = 5. -/
theorem c2_open_scenario_amended_witness :
    (fire_completion c2_open 0 5).is_moving = true :=
  (c2_open_scenario_amended 5 (by norm_num) (by norm_num)).1

/-- C1 counterexample: a no-target up movement started from position 50
with travel time 20 has remaining-distance-scaled duration 10, but the
projection at elapsed 10 is 75, not the endpoint 100 — the projection
divides elapsed by the full travel time, not by the scaled duration. -/
theorem c1_scaled_duration_refuted :
    start_movement (idleState 50 20) 0 Direction.up none
      = (movingState 50 20 0 Direction.up, some 10)
    ∧ (20 : ℚ) * ((100 : ℚ) - 50) / 100 = 10
    ∧ calculate_current_position (movingState 50 20 0 Direction.up) 10 = 75
    ∧ (75 : ℤ) ≠ 100 := by
  refine ⟨?_, by norm_num, calc_up_50_at_10, by norm_num⟩
  norm_num [start_movement, idleState, movingState]

/-- C1 amended: for a movement started with no target, the projection
uses the full travel time as denominator — progress =
min(elapsed / travelTime, 1) — with position startPosition +
(100 − startPosition)·progress for up and startPosition·(1 − progress)
for down; consequently the projection reaches the endpoint at
elapsed = travelTime (and, going up from below 100, not earlier); the
remaining-distance-scaled duration is used only to schedule the
completion callback. -/
theorem c1_projection_full_travel_time (p0 : ℤ) (tt e : ℚ)
    (h0 : 0 ≤ p0) (h1 : p0 ≤ 100) (htt : 0 < tt) :
    (start_movement (idleState p0 tt) 0 Direction.up none).1
        = movingState p0 tt 0 Direction.up
    ∧ (start_movement (idleState p0 tt) 0 Direction.down none).1
        = movingState p0 tt 0 Direction.down
    ∧ (tt ≤ e →
        calculate_current_position (movingState p0 tt 0 Direction.up) e = 100
        ∧ calculate_current_position (movingState p0 tt 0 Direction.down) e = 0)
    ∧ (0 ≤ e → e < tt → p0 < 100 →
        calculate_current_position (movingState p0 tt 0 Direction.up) e < 100) := by
  have hp0 : (0 : ℚ) ≤ (p0 : ℚ) := by exact_mod_cast h0
  have hp1 : (p0 : ℚ) ≤ 100 := by exact_mod_cast h1
  refine ⟨rfl, rfl, ?_, ?_⟩
  · intro he
    have hmin : min ((e - 0) / tt) 1 = 1 :=
      min_eq_right ((le_div_iff₀ htt).mpr (by linarith))
    constructor
    · simp only [calculate_current_position, movingState]
      rw [hmin, show (p0 : ℚ) + (100 - (p0 : ℚ)) * 1 = ((100 : ℤ) : ℚ) by
        push_cast; ring]
      exact pyInt_intCast 100
    · simp only [calculate_current_position, movingState]
      rw [hmin, show (p0 : ℚ) * (1 - 1) = ((0 : ℤ) : ℚ) by push_cast; ring]
      exact pyInt_intCast 0
  · intro he0 he1 hlt
    have hplt : (p0 : ℚ) < 100 := by exact_mod_cast hlt
    have hd1 : (e - 0) / tt < 1 := (div_lt_one htt).mpr (by linarith)
    have hd0 : 0 ≤ (e - 0) / tt := div_nonneg (by linarith) htt.le
    have hmin : min ((e - 0) / tt) 1 = (e - 0) / tt := min_eq_left hd1.le
    simp only [calculate_current_position, movingState]
    rw [hmin]
    refine pyInt_lt ?_ ?_
    · nlinarith
    · push_cast
      nlinarith

/-- Witness for C1's amended theorem: starting from 50 with travel time
20, the projection is 100 at elapsed 20 and below 100 at elapsed 10. -/
theorem c1_projection_full_travel_time_witness :
    calculate_current_position (movingState 50 20 0 Direction.up) 20 = 100
    ∧ calculate_current_position (movingState 50 20 0 Direction.up) 10 < 100 :=
  ⟨((c1_projection_full_travel_time 50 20 20 (by norm_num) (by norm_num)
      (by norm_num)).2.2.1 (by norm_num)).1,
    (c1_projection_full_travel_time 50 20 10 (by norm_num) (by norm_num)
      (by norm_num)).2.2.2 (by norm_num) (by norm_num) (by norm_num)⟩

theorem c3_move_a_eq : c3_move_a = (movingState 50 20 0 Direction.up, some 10) := by
  norm_num [c3_move_a, async_open_cover, stop_movement, initState, start_movement,
    movingState]

theorem c3_superseded_eq :
    c3_superseded =
      { state :=
          { position := 62, is_moving := true, move_start_time := some 5,
            move_start_position := 62, move_direction := some Direction.down,
            move_target := some 0, travel_time := 20 }
        sent_command := true
        completion_delay := some (62 / 5)
        stop_task := some (62 / 5, 0) } := by
  rw [c3_superseded, c3_move_a_eq]
  norm_num [async_set_cover_position, stop_movement, calculate_current_position,
    movingState, pyInt, start_movement]

theorem c3_complete_eq :
    complete_movement c3_superseded.state =
      { position := 0, is_moving := false, move_start_time := none,
        move_start_position := 62, move_direction := none,
        move_target := none, travel_time := 20 } := by
  rw [c3_superseded_eq]
  norm_num [complete_movement]

/-- C3: the failing interleaving, evaluated on the code.  `open()` at
time 0 schedules a completion at delay 10; `setCoverPosition(0)` at time
5 supersedes it with a down movement targeting 0 (a different target and
direction); when the stale completion fires at time 10, its only guard is
`_is_moving`, so instead of being a no-op it stores the new movement's
target 0 and clears the movement — mutating state and completing the
superseding movement prematurely. -/
theorem stale_completion_not_a_noop :
    c3_move_a.2 = some 10
    ∧ c3_move_a.1.move_direction = some Direction.up
    ∧ c3_move_a.1.move_target = none
    ∧ c3_superseded.state.is_moving = true
    ∧ c3_superseded.state.move_direction = some Direction.down
    ∧ c3_superseded.state.move_target = some 0
    ∧ (complete_movement c3_superseded.state).position = 0
    ∧ (complete_movement c3_superseded.state).is_moving = false
    ∧ complete_movement c3_superseded.state ≠ c3_superseded.state := by
  rw [c3_complete_eq, c3_move_a_eq, c3_superseded_eq]
  refine ⟨rfl, rfl, rfl, rfl, rfl, rfl, rfl, rfl, ?_⟩
  intro h
  exact absurd (congrArg BlindState.is_moving h) (by simp)

theorem stop_movement_not_moving (s : BlindState) (now : ℚ) :
    (stop_movement s now).is_moving = false := by
  unfold stop_movement
  split_ifs with h
  · rfl
  · cases hb : s.is_moving with
    | false => rfl
    | true => exact absurd hb h

theorem c4_stop_eq :
    stop_movement movingUp50 5 =
      { position := 62, is_moving := false, move_start_time := none,
        move_start_position := 50, move_direction := none, move_target := none,
        travel_time := 20 } := by
  norm_num [stop_movement, movingUp50, movingState, calculate_current_position,
    pyInt]

/-- C4 counterexample: `async_open_cover` on a cover moving up from 50
(5 seconds in) with the client returning false still mutates the
estimator: the unconditional preliminary `_stop_movement` commits the
projected position 62 and clears the movement, although no command
succeeded. -/
theorem failed_command_still_mutates :
    (async_open_cover movingUp50 5 false).1.position = 62
    ∧ (async_open_cover movingUp50 5 false).1.is_moving = false
    ∧ movingUp50.position = 50
    ∧ movingUp50.is_moving = true
    ∧ (async_open_cover movingUp50 5 false).1 ≠ movingUp50 := by
  have hopen : (async_open_cover movingUp50 5 false).1 =
      stop_movement movingUp50 5 := rfl
  rw [hopen, c4_stop_eq]
  refine ⟨rfl, rfl, rfl, rfl, ?_⟩
  intro h
  exact absurd (congrArg BlindState.is_moving h) (by simp [movingUp50, movingState])

/-- C4 amended: open and close start a movement, and stop clears one,
only when the corresponding command returned true — but open and close
first unconditionally stop any in-flight movement (mutating the
estimator even when the command then fails), and `setCoverPosition`
discards the command results entirely, starting the movement and
scheduling its stop regardless of delivery. -/
theorem command_gating_amended (s : BlindState) (now : ℚ) (pos : ℤ)
    (hfar : 3 ≤ |pos - (stop_movement s now).position|) :
    (async_open_cover s now false).1 = stop_movement s now
    ∧ (async_close_cover s now false).1 = stop_movement s now
    ∧ (async_open_cover s now false).1.is_moving = false
    ∧ (async_open_cover s now true).1.is_moving = true
    ∧ (async_close_cover s now true).1.is_moving = true
    ∧ async_stop_cover s now false = s
    ∧ (async_set_cover_position s now pos).state.is_moving = true
    ∧ (async_set_cover_position s now pos).sent_command = true := by
  refine ⟨rfl, rfl, stop_movement_not_moving s now, rfl, rfl, rfl, ?_, ?_⟩
  · simp only [async_set_cover_position]
    split_ifs with h
    · exact absurd h (not_lt.mpr hfar)
    · rfl
    · rfl
  · simp only [async_set_cover_position]
    split_ifs with h
    · exact absurd h (not_lt.mpr hfar)
    · rfl
    · rfl

/-- Witness for C4's amended theorem on a fresh cover and target 0. -/
theorem command_gating_amended_witness :
    async_stop_cover (initState 20) 0 false = initState 20
    ∧ (async_set_cover_position (initState 20) 0 0).sent_command = true := by
  have h := command_gating_amended (initState 20) 0 0
    (by norm_num [stop_movement, initState])
  exact ⟨h.2.2.2.2.2.1, h.2.2.2.2.2.2.2⟩

theorem calc_down_50_at_20 :
    calculate_current_position movingDown50 20 = 0 := by
  simp only [calculate_current_position, movingDown50, movingState, pyInt]
  norm_num
  decide

/-- C7 counterexample: a cover closing from 50, observed a full travel
time later, has effective (projected) position 0 ≤ 2, yet `is_closed` is
false because it reads the stored position 50, not the projection. -/
theorem is_closed_ignores_projection :
    current_cover_position movingDown50 20 = 0
    ∧ ((0 : ℤ) ≤ 2)
    ∧ is_closed movingDown50 = false := by
  have h : current_cover_position movingDown50 20 =
      calculate_current_position movingDown50 20 := rfl
  rw [h, calc_down_50_at_20]
  exact ⟨rfl, by norm_num, rfl⟩

/-- C7 amended: `is_closed` is computed from the stored position only —
true iff stored position ≤ 2.  When no movement is in flight the stored
position is the effective one, so the claimed equivalence with the
projected position holds for idle states; while moving, `is_closed`
keeps using the stored pre-movement position, not the extrapolation. -/
theorem is_closed_stored_position_amended (s : BlindState) (now : ℚ)
    (h : s.is_moving = false) :
    (is_closed s = true ↔ s.position ≤ 2)
    ∧ (is_closed s = true ↔ current_cover_position s now ≤ 2) := by
  have h1 : is_closed s = true ↔ s.position ≤ 2 := by
    simp [is_closed]
  refine ⟨h1, ?_⟩
  unfold current_cover_position
  rw [h]
  simpa using h1

/-- Witness for C7's amended theorem on an idle cover at position 1. -/
theorem is_closed_stored_position_amended_witness :
    is_closed (idleState 1 20) = true ↔
      current_cover_position (idleState 1 20) 0 ≤ 2 :=
  (is_closed_stored_position_amended (idleState 1 20) 0 rfl).2

theorem calc_down_50_at_5 :
    calculate_current_position movingDown50 5 = 37 := by
  simp only [calculate_current_position, movingDown50, movingState, pyInt]
  norm_num
  decide

theorem c8_stop_eq :
    stop_movement movingDown50 5 =
      { position := 37, is_moving := false, move_start_time := none,
        move_start_position := 50, move_direction := none, move_target := none,
        travel_time := 20 } := by
  unfold stop_movement
  rw [if_pos (show movingDown50.is_moving = true from rfl), calc_down_50_at_5]
  rfl

theorem c8_set_eq :
    async_set_cover_position movingDown50 5 36 =
      { state :=
          { position := 37, is_moving := false, move_start_time := none,
            move_start_position := 50, move_direction := none,
            move_target := none, travel_time := 20 }
        sent_command := false
        completion_delay := none
        stop_task := none } := by
  norm_num [async_set_cover_position, c8_stop_eq]

/-- C8 counterexample: on a cover closing from 50 (5 seconds in,
projection 37), `setCoverPosition(36)` with |36 − 37| < 3 issues no
command, but it is not a no-op: the precedent unconditional stop commits
position 37 and clears the movement fields, changing the per-blind
state. -/
theorem near_target_not_noop :
    current_cover_position movingDown50 5 = 37
    ∧ |(36 : ℤ) - 37| < 3
    ∧ (async_set_cover_position movingDown50 5 36).state.is_moving = false
    ∧ (async_set_cover_position movingDown50 5 36).state.position = 37
    ∧ (async_set_cover_position movingDown50 5 36).sent_command = false
    ∧ (async_set_cover_position movingDown50 5 36).state ≠ movingDown50 := by
  have h : current_cover_position movingDown50 5 =
      calculate_current_position movingDown50 5 := rfl
  rw [h, calc_down_50_at_5, c8_set_eq]
  refine ⟨rfl, by norm_num, rfl, rfl, rfl, ?_⟩
  intro heq
  exact absurd (congrArg BlindState.is_moving heq)
    (by simp [movingDown50, movingState])

/-- C8 amended: when |target − position-after-stopping| < 3 the call
issues no HTTP command, schedules nothing, and starts no movement; for an
idle state this is a complete no-op (state unchanged), but an in-flight
movement is first unconditionally stopped, committing its projected
position — a state change the near-target branch does not undo. -/
theorem near_target_noop_amended (s : BlindState) (now : ℚ) (pos : ℤ)
    (hnear : |pos - (stop_movement s now).position| < 3) :
    async_set_cover_position s now pos =
      { state := stop_movement s now, sent_command := false,
        completion_delay := none, stop_task := none }
    ∧ (s.is_moving = false →
        async_set_cover_position s now pos =
          { state := s, sent_command := false, completion_delay := none,
            stop_task := none }) := by
  have h1 : async_set_cover_position s now pos =
      { state := stop_movement s now, sent_command := false,
        completion_delay := none, stop_task := none } := by
    simp only [async_set_cover_position]
    rw [if_pos hnear]
  refine ⟨h1, fun hidle => ?_⟩
  have hstop : stop_movement s now = s := by
    simp [stop_movement, hidle]
  rw [h1, hstop]

/-- Witness for C8's amended theorem: a fresh cover asked for position 49
(|49 − 50| < 3) is left unchanged and no command is sent. -/
theorem near_target_noop_amended_witness :
    async_set_cover_position (initState 20) 0 49 =
      { state := initState 20, sent_command := false,
        completion_delay := none, stop_task := none } :=
  (near_target_noop_amended (initState 20) 0 49
    (by norm_num [stop_movement, initState])).2 rfl

end InelNet
